import Mathlib

/-!
Verification of the link-to-attachment conversion pipeline.

Shallow embedding of the pipeline sources:
  - `src/src/components/link-converter/types.ts` (deny-list, category tables)
  - `src/src/utils/urlDetector.ts` (`UrlDetector`)
  - `src/unnamed/part_010` (`FileDownloader`)
  - `src/unnamed/part_011` (`AttachmentUploader`)
  - `src/src/services/linkConversionService.ts` (`LinkConversionService`)

JavaScript strings are modelled as Lean `String`/`List Char`; machine
numbers that only ever hold byte counts, indices and retry counters are
modelled as `Nat`.  Asynchronous queue/counter behaviour is modelled as an
explicit transition relation on a pool-state record.
-/

namespace LinkConvert

/-! ## JS string primitives

`String.prototype.includes(pat)` is modelled by `segIn`/`strIncludes`:
a left-to-right scan that at each position tests whether `pat` is a
prefix of the remaining characters. -/

/-- Model of `String.prototype.includes` on character lists: `pat` occurs
as a contiguous segment of the second list. -/
def segIn (pat : List Char) : List Char → Bool
  | [] => pat.isEmpty
  | c :: rest => pat.isPrefixOf (c :: rest) || segIn pat rest

/-- Model of `String.prototype.includes` on strings. -/
def strIncludes (s pat : String) : Bool :=
  segIn pat.toList s.toList

/-- Model of `String.prototype.startsWith` on strings. -/
def strStartsWith (s pat : String) : Bool :=
  pat.toList.isPrefixOf s.toList

theorem segIn_eq_isInfix (pat l : List Char) : segIn pat l = true ↔ pat <:+: l := by
  induction l with
  | nil => simp [segIn, List.isEmpty_iff, List.infix_nil]
  | cons c rest ih =>
    simp only [segIn, Bool.or_eq_true, List.isPrefixOf_iff_prefix, ih,
      List.infix_cons_iff]

theorem mem_of_segIn {pat l : List Char} (h : segIn pat l = true)
    {c : Char} (hc : c ∈ pat) : c ∈ l :=
  ((segIn_eq_isInfix pat l).mp h).subset hc

theorem segIn_append_right {pat b : List Char} (a : List Char)
    (h : segIn pat b = true) : segIn pat (a ++ b) = true := by
  rw [segIn_eq_isInfix] at h ⊢
  exact h.trans (List.suffix_append a b).isInfix

theorem segIn_trans {p q r : List Char} (hpq : segIn p q = true)
    (hqr : segIn q r = true) : segIn p r = true := by
  rw [segIn_eq_isInfix] at hpq hqr ⊢
  exact hpq.trans hqr

theorem segIn_append_cases {pat b : List Char} (a : List Char)
    (h : segIn pat (a ++ b) = true) :
    segIn pat b = true ∨ ∃ c ∈ a, c ∈ pat := by
  induction a with
  | nil => exact Or.inl h
  | cons c rest ih =>
    rw [List.cons_append, segIn, Bool.or_eq_true] at h
    rcases h with h | h
    · cases pat with
      | nil => exact Or.inl (by simp [segIn_eq_isInfix])
      | cons p ps =>
        rw [List.isPrefixOf_iff_prefix] at h
        obtain ⟨t, ht⟩ := h
        have hpc : p = c := by
          have := congrArg (List.head?) ht
          simpa using this
        exact Or.inr ⟨c, by simp, by simp [← hpc]⟩
    · rcases ih h with h2 | ⟨d, hd, hdp⟩
      · exact Or.inl h2
      · exact Or.inr ⟨d, by simp [hd], hdp⟩

/-! ## Decimal rendering of numbers

JS template literals render byte counts in decimal.  `decRepr` is the
embedding's decimal renderer (fuel-based so that it is structurally
recursive and kernel-evaluable). -/

/-- Decimal digit character for a value below ten. -/
def digitChar (n : Nat) : Char := Char.ofNat (48 + n)

/-- Fuel-driven decimal rendering loop. -/
def decReprAux : Nat → Nat → List Char
  | 0, _ => []
  | fuel + 1, n =>
    if n < 10 then [digitChar n]
    else decReprAux fuel (n / 10) ++ [digitChar (n % 10)]

/-- Decimal rendering of a natural number, as a character list. -/
def decRepr (n : Nat) : List Char := decReprAux (n + 1) n

/-- Decimal rendering of a natural number, as a string. -/
def natStr (n : Nat) : String := ⟨decRepr n⟩

theorem mem_decReprAux {fuel n : Nat} {c : Char}
    (h : c ∈ decReprAux fuel n) : ∃ d, d < 10 ∧ c = digitChar d := by
  induction fuel generalizing n with
  | zero => simp [decReprAux] at h
  | succ fuel ih =>
    rw [decReprAux] at h
    by_cases hn : n < 10
    · rw [if_pos hn] at h
      simp at h
      exact ⟨n, hn, h⟩
    · rw [if_neg hn] at h
      rcases List.mem_append.mp h with h2 | h2
      · exact ih h2
      · simp at h2
        exact ⟨n % 10, Nat.mod_lt _ (by norm_num), h2⟩

theorem mem_decRepr {n : Nat} {c : Char} (h : c ∈ decRepr n) :
    ∃ d, d < 10 ∧ c = digitChar d :=
  mem_decReprAux h

/-! ## File-type tables (`src/src/components/link-converter/types.ts`) -/

/-- The fixed deny-list `DANGEROUS_FILE_EXTENSIONS` (copied verbatim,
including the duplicated `scr` entry). -/
def DANGEROUS_FILE_EXTENSIONS : List String :=
  ["exe", "bat", "cmd", "com", "pif", "scr", "vbs", "js", "jar",
   "app", "deb", "pkg", "dmg", "rpm", "msi", "apk", "ipa",
   "ps1", "sh", "bash", "zsh", "fish", "py", "pl", "rb",
   "ms", "mde", "docm", "dotm", "xlsm", "xltm", "xlam", "pptm", "potm",
   "cpl", "msp", "scr", "wsf", "vbscript"]

/-- The file-type categories of `FILE_TYPE_CATEGORIES`. -/
inductive FileTypeCategory where
  | image | document | media | archive | other
deriving DecidableEq, Repr

/-- The extension table `FILE_TYPE_EXTENSIONS`. -/
def FILE_TYPE_EXTENSIONS : FileTypeCategory → List String
  | .image =>
    ["jpg", "jpeg", "png", "gif", "webp", "svg", "bmp", "ico", "tiff", "tif"]
  | .document =>
    ["pdf", "doc", "docx", "xls", "xlsx", "ppt", "pptx", "txt", "rtf", "odt",
     "ods", "odp", "csv", "json", "xml", "html", "htm", "md", "tex"]
  | .media =>
    ["mp4", "avi", "mov", "wmv", "flv", "webm", "mkv", "mp3", "wav", "ogg",
     "flac", "aac", "m4a", "wma", "mid", "midi"]
  | .archive =>
    ["zip", "rar", "7z", "tar", "gz", "bz2", "xz", "lzma", "cab", "iso", "dmg"]
  | .other => []

/-! ## Resource classifier (`UrlDetector.extractFileInfo`, `inferMimeType`) -/

/-- The `IFileInfo` record of `urlDetector.ts`. -/
structure FileInfo where
  extension : String
  fileName : String
  isDangerous : Bool
  mimeType : Option String
deriving DecidableEq, Repr

/-- The MIME lookup table of `UrlDetector.inferMimeType` (the final
`toLowerCase` is applied by the caller on an already-lowercased
extension, so lookup is on the given key). -/
def inferMimeType (extension : String) : String :=
  let table : List (String × String) :=
    [("jpg", "image/jpeg"), ("jpeg", "image/jpeg"), ("png", "image/png"),
     ("gif", "image/gif"), ("webp", "image/webp"), ("svg", "image/svg+xml"),
     ("bmp", "image/bmp"), ("ico", "image/x-icon"),
     ("pdf", "application/pdf"), ("doc", "application/msword"),
     ("docx", "application/vnd.openxmlformats-officedocument.wordprocessingml.document"),
     ("xls", "application/vnd.ms-excel"),
     ("xlsx", "application/vnd.openxmlformats-officedocument.spreadsheetml.sheet"),
     ("ppt", "application/vnd.ms-powerpoint"),
     ("pptx", "application/vnd.openxmlformats-officedocument.presentationml.presentation"),
     ("txt", "text/plain"), ("rtf", "application/rtf"),
     ("mp4", "video/mp4"), ("avi", "video/x-msvideo"), ("mp3", "audio/mpeg"),
     ("wav", "audio/wav"), ("mov", "video/quicktime"), ("mkv", "video/x-matroska"),
     ("flv", "video/x-flv"), ("webm", "video/webm"),
     ("zip", "application/zip"), ("rar", "application/x-rar-compressed"),
     ("7z", "application/x-7z-compressed"), ("tar", "application/x-tar"),
     ("gz", "application/gzip"), ("bz2", "application/x-bzip2")]
  match table.find? (fun p => p.1 == (extension.toList.map Char.toLower).asString) with
  | some p => p.2
  | none => "application/octet-stream"

/-- Model of `String.prototype.split(sep)` for a one-character separator. -/
def splitChar (sep : Char) : List Char → List (List Char)
  | [] => [[]]
  | c :: rest =>
    match splitChar sep rest with
    | [] => if c == sep then [[], []] else [[c]]
    | g :: gs => if c == sep then [] :: g :: gs else (c :: g) :: gs

/-- Splits a character list at its last dot, mirroring
`lastIndexOf('.')` followed by the two `substring` calls:
returns `(fileName, extension)` or `none` when there is no dot. -/
def lastDotSplit : List Char → Option (List Char × List Char)
  | [] => none
  | c :: rest =>
    match lastDotSplit rest with
    | some (pre, suf) => some (c :: pre, suf)
    | none => if c == '.' then some ([], rest) else none

/-- Model of `UrlDetector.extractFileInfo` applied to the `pathname` of
the already-parsed URL (the surrounding `new URL(url)` parse is the URL
model's concern; a parse failure yields `null` exactly as the catch
branch does). -/
def extractFileInfo (pathname : String) : Option FileInfo :=
  match lastDotSplit ((splitChar '/' pathname.toList).getLastD []) with
  | none => none
  | some (namePart, extPart) =>
    some
      { extension := (extPart.map Char.toLower).asString
        fileName := namePart.asString
        isDangerous :=
          DANGEROUS_FILE_EXTENSIONS.contains ((extPart.map Char.toLower).asString)
        mimeType := some (inferMimeType ((extPart.map Char.toLower).asString)) }

/-! ## Download configuration and file-type policy (`FileDownloader`) -/

/-- The fields of `IDownloadConfig` consulted by the modelled logic
(callbacks, which only observe, and `timeout`, which is never read by
`FileDownloader`, are omitted). -/
structure DlConfig where
  maxConcurrency : Nat
  maxFileSize : Nat
  retryCount : Nat
  retryDelay : Nat
  allowedFileTypes : List FileTypeCategory
  allowAllFileTypes : Bool
deriving Repr

/-- Model of `FileDownloader.isFileTypeAllowed`.  Note the order of the
guards: `allowAllFileTypes` short-circuits to `true` before the
dangerous-extension check is reached. -/
def isFileTypeAllowed (config : DlConfig) (fileInfo : Option FileInfo) : Bool :=
  if config.allowAllFileTypes then
    true
  else
    match fileInfo with
    | none => true
    | some fi =>
      if fi.extension.isEmpty then true
      else if fi.isDangerous then false
      else config.allowedFileTypes.any
        (fun fileType => (FILE_TYPE_EXTENSIONS fileType).contains fi.extension)

/-! ## Downloader error messages and retry predicate -/

/-- Model of `Math.round(n / 1024 / 1024)` for a byte count `n`. -/
def jsRoundMB (n : Nat) : Nat := (2 * n + 1048576) / 2097152

/-- The message thrown on `!response.ok`:
`HTTP (status): (statusText)` with a space after the colon. -/
def httpErrorMsg (status : Nat) (statusText : String) : String :=
  "HTTP " ++ natStr status ++ ": " ++ statusText

/-- The message thrown by the pre-flight size check. -/
def sizeMsgPre (totalSize limit : Nat) : String :=
  "File size (" ++ natStr (jsRoundMB totalSize) ++ "MB) exceeds limit (" ++
    natStr (jsRoundMB limit) ++ "MB)"

/-- The message thrown by the mid-stream size check. -/
def sizeMsgMid : String := "File size exceeds limit during download"

/-- Model of `FileDownloader.shouldRetry`: retry exactly when the error
message contains one of the four network-keyword fragments. -/
def dlShouldRetry (msg : String) : Bool :=
  strIncludes msg "fetch" || strIncludes msg "timeout" ||
    strIncludes msg "network" || strIncludes msg "Failed to fetch"

/-- Characters that can occur in the pre-flight size message: the fixed
message text plus decimal digits. -/
def benignChar (c : Char) : Bool :=
  "File size (MB) exceeds limit()".toList.contains c ||
    (48 ≤ c.val && c.val ≤ 57)

theorem benignChar_digitChar {d : Nat} (hd : d < 10) :
    benignChar (digitChar d) = true := by
  interval_cases d <;> decide

theorem not_includes_of_benign {msg : String}
    (hb : ∀ c ∈ msg.toList, benignChar c = true) {kw : String} {w : Char}
    (hw : w ∈ kw.toList) (hwb : benignChar w = false) :
    strIncludes msg kw = false := by
  cases h : strIncludes msg kw with
  | false => rfl
  | true =>
    have : w ∈ msg.toList := mem_of_segIn h hw
    rw [hb w this] at hwb
    cases hwb

theorem toList_append (s t : String) : (s ++ t).toList = s.toList ++ t.toList := by
  cases s; cases t; rfl

theorem natStr_toList (m : Nat) : (natStr m).toList = decRepr m := rfl

theorem benign_sizeMsgPre (a b : Nat) :
    ∀ c ∈ (sizeMsgPre a b).toList, benignChar c = true := by
  intro c hc
  have h1 : ∀ x ∈ ("File size (" : String).toList, benignChar x = true := by decide
  have h2 : ∀ x ∈ ("MB) exceeds limit (" : String).toList, benignChar x = true := by
    decide
  have h3 : ∀ x ∈ ("MB)" : String).toList, benignChar x = true := by decide
  have hdig : ∀ {n : Nat}, c ∈ decRepr n → benignChar c = true := by
    intro n hn
    obtain ⟨d, hd, rfl⟩ := mem_decRepr hn
    exact benignChar_digitChar hd
  rw [sizeMsgPre, toList_append, toList_append, toList_append, toList_append,
    natStr_toList, natStr_toList] at hc
  rcases List.mem_append.mp hc with hc | hc
  · rcases List.mem_append.mp hc with hc | hc
    · rcases List.mem_append.mp hc with hc | hc
      · rcases List.mem_append.mp hc with hc | hc
        · exact h1 c hc
        · exact hdig hc
      · exact h2 c hc
    · exact hdig hc
  · exact h3 c hc

theorem dlShouldRetry_sizeMsgPre (a b : Nat) :
    dlShouldRetry (sizeMsgPre a b) = false := by
  have hb := benign_sizeMsgPre a b
  simp only [dlShouldRetry, Bool.or_eq_false_iff]
  refine ⟨⟨⟨?_, ?_⟩, ?_⟩, ?_⟩
  · exact @not_includes_of_benign _ hb "fetch" 'f' (by decide) (by decide)
  · exact @not_includes_of_benign _ hb "timeout" 'o' (by decide) (by decide)
  · exact @not_includes_of_benign _ hb "network" 'o' (by decide) (by decide)
  · exact @not_includes_of_benign _ hb "Failed to fetch" 'f' (by decide) (by decide)

/-- Characters that can occur in the fixed part `HTTP (status): ` of an
HTTP failure message. -/
def headChar (c : Char) : Bool :=
  "HTTP :".toList.contains c || (48 ≤ c.val && c.val ≤ 57)

theorem headChar_decRepr {n : Nat} {c : Char} (hc : c ∈ decRepr n) :
    headChar c = true := by
  obtain ⟨d, hd, rfl⟩ := mem_decRepr hc
  simp only [headChar, Bool.or_eq_true]
  right
  interval_cases d <;> decide

/-- The retry decision on an HTTP status failure never depends on the
status code: it reduces to keyword search inside the status text. -/
theorem dlShouldRetry_httpErrorMsg (status : Nat) (statusText : String) :
    dlShouldRetry (httpErrorMsg status statusText) =
      (strIncludes statusText "fetch" || strIncludes statusText "timeout" ||
        strIncludes statusText "network") := by
  have hlist : (httpErrorMsg status statusText).toList =
      (("HTTP ".toList ++ decRepr status) ++ ": ".toList) ++ statusText.toList := by
    rw [httpErrorMsg, toList_append, toList_append, toList_append, natStr_toList]
  have hhead : ∀ c ∈ (("HTTP ".toList ++ decRepr status) ++ ": ".toList),
      headChar c = true := by
    have hA : ∀ x ∈ ("HTTP " : String).toList, headChar x = true := by decide
    have hB : ∀ x ∈ (": " : String).toList, headChar x = true := by decide
    intro c hc
    rcases List.mem_append.mp hc with hc | hc
    · rcases List.mem_append.mp hc with hc | hc
      · exact hA c hc
      · exact headChar_decRepr hc
    · exact hB c hc
  have key : ∀ kw : String, (∀ c ∈ kw.toList, headChar c = false) →
      strIncludes (httpErrorMsg status statusText) kw = strIncludes statusText kw := by
    intro kw hkw
    cases h : strIncludes statusText kw with
    | true =>
      have h0 := @segIn_append_right kw.toList statusText.toList
        (("HTTP ".toList ++ decRepr status) ++ ": ".toList) h
      rw [strIncludes, hlist]
      exact h0
    | false =>
      cases h2 : strIncludes (httpErrorMsg status statusText) kw with
      | false => rfl
      | true =>
        rw [strIncludes, hlist] at h2
        rcases segIn_append_cases _ h2 with h3 | ⟨c, hca, hck⟩
        · rw [strIncludes] at h; rw [h] at h3; cases h3
        · have h5 := hhead c hca
          rw [hkw c hck] at h5
          cases h5
  have hfetch := key "fetch" (by decide)
  have htimeout := key "timeout" (by decide)
  have hnetwork := key "network" (by decide)
  have hfailed : strIncludes (httpErrorMsg status statusText) "Failed to fetch" = true →
      strIncludes (httpErrorMsg status statusText) "fetch" = true := by
    intro h
    exact segIn_trans (q := "Failed to fetch".toList) (by decide) h
  rw [dlShouldRetry, hfetch, htimeout, hnetwork]
  cases h4 : strIncludes (httpErrorMsg status statusText) "Failed to fetch" with
  | false => simp
  | true =>
    have := hfailed h4
    rw [hfetch] at this
    simp [this]

/-! ## The single-attempt download algorithm (`FileDownloader.downloadFile`)

One fetch of one URL is modelled as a pure function of the configuration
and a download environment describing what the network would answer:
`validUrl` is the outcome of `UrlDetector.isValidUrl` on the normalized
URL, `fileInfo` the outcome of `UrlDetector.extractFileInfo`, and
`response` the HTTP answer (`none` when `fetch` itself rejects, carrying
the rejection message). -/

/-- The observable parts of a `fetch` response: `ok`/`status`/`statusText`,
the declared `content-length` header (as a parsed number), and the body
as a list of chunk sizes handed out by the stream reader. -/
structure HttpResponse where
  ok : Bool
  status : Nat
  statusText : String
  contentLength : Option Nat
  body : Option (List Nat)
deriving Repr

/-- The deterministic environment one download attempt runs against. -/
structure DlEnv where
  validUrl : Bool
  fileInfo : Option FileInfo
  response : Option HttpResponse
  networkErrorMsg : String
deriving Repr

/-- The modelled fields of one attempt's `IDownloadResult`: success flag,
error message, whether `fetch` was reached, how many chunks were read
from the body stream, and the accumulated byte count on success. -/
structure AttemptResult where
  success : Bool
  error : Option String
  fetched : Bool
  chunksRead : Nat
  fileSize : Option Nat
deriving DecidableEq, Repr

/-- Outcome of the chunk-reading loop. -/
structure StreamOutcome where
  exceeded : Bool
  chunksRead : Nat
  loaded : Nat
deriving DecidableEq, Repr

/-- The `while (true)` reader loop: accumulate chunk sizes into `loaded`
and abort as soon as the accumulated count exceeds the limit. -/
def streamChunks (maxFileSize : Nat) : List Nat → Nat → Nat → StreamOutcome
  | [], loaded, k => ⟨false, k, loaded⟩
  | c :: rest, loaded, k =>
    if maxFileSize < loaded + c then ⟨true, k + 1, loaded + c⟩
    else streamChunks maxFileSize rest (loaded + c) (k + 1)

/-- The body-reading phase of a download attempt: obtain the stream
reader (failing as the code does when the body is absent) and run the
chunk loop with its mid-stream size check. -/
def downloadBody (cfg : DlConfig) (resp : HttpResponse) : AttemptResult :=
  match resp.body with
  | none =>
    { success := false, error := some "Unable to read response body",
      fetched := true, chunksRead := 0, fileSize := none }
  | some chunks =>
    let st := streamChunks cfg.maxFileSize chunks 0 0
    if st.exceeded then
      { success := false, error := some sizeMsgMid,
        fetched := true, chunksRead := st.chunksRead, fileSize := none }
    else
      { success := true, error := none,
        fetched := true, chunksRead := st.chunksRead,
        fileSize := some st.loaded }

/-- One attempt of `FileDownloader.downloadFile`, excluding the retry
logic of its catch block: URL validation, file-type policy, `fetch`,
`response.ok` check, declared-size check (skipped when the header is
absent, and vacuous when it parses to `0`, mirroring the
`totalSize && totalSize > max` truthiness guard), then the streaming
loop with its mid-stream size check. -/
def downloadAttempt (cfg : DlConfig) (env : DlEnv) : AttemptResult :=
  if env.validUrl = false then
    { success := false, error := some "Invalid URL format",
      fetched := false, chunksRead := 0, fileSize := none }
  else if isFileTypeAllowed cfg env.fileInfo = false then
    { success := false, error := some "File type not allowed",
      fetched := false, chunksRead := 0, fileSize := none }
  else
    match env.response with
    | none =>
      { success := false, error := some env.networkErrorMsg,
        fetched := true, chunksRead := 0, fileSize := none }
    | some resp =>
      if resp.ok = false then
        { success := false, error := some (httpErrorMsg resp.status resp.statusText),
          fetched := true, chunksRead := 0, fileSize := none }
      else
        match resp.contentLength with
        | some t =>
          if cfg.maxFileSize < t then
            { success := false, error := some (sizeMsgPre t cfg.maxFileSize),
              fetched := true, chunksRead := 0, fileSize := none }
          else downloadBody cfg resp
        | none => downloadBody cfg resp

/-- The retry loop of `downloadFile`'s catch block, driven by the
remaining retry budget `cfg.retryCount - retryCount`: a failed attempt
whose message satisfies `shouldRetry` is retried while budget remains.
Returns the final result and the total number of attempts made. -/
def downloadFileGo (cfg : DlConfig) (env : DlEnv) : Nat → AttemptResult × Nat
  | 0 => (downloadAttempt cfg env, 1)
  | budget + 1 =>
    let r := downloadAttempt cfg env
    if r.success = false ∧
        dlShouldRetry (r.error.getD "Unknown error occurred") = true then
      let next := downloadFileGo cfg env budget
      (next.1, next.2 + 1)
    else
      (r, 1)

/-- Model of `FileDownloader.downloadFile` called with the initial
`retryCount = 0`: the full retry budget is `cfg.retryCount`. -/
def downloadFile (cfg : DlConfig) (env : DlEnv) : AttemptResult × Nat :=
  downloadFileGo cfg env cfg.retryCount

theorem downloadFileGo_no_retry (cfg : DlConfig) (env : DlEnv)
    (h : dlShouldRetry ((downloadAttempt cfg env).error.getD
      "Unknown error occurred") = false) :
    ∀ budget, downloadFileGo cfg env budget = (downloadAttempt cfg env, 1) := by
  intro budget
  cases budget with
  | zero => rfl
  | succ b =>
    rw [downloadFileGo]
    rw [if_neg]
    intro hcon
    rw [h] at hcon
    exact absurd hcon.2 (by simp)

theorem extractFileInfo_isDangerous {path : String} {fi : FileInfo}
    (h : extractFileInfo path = some fi) :
    fi.isDangerous = DANGEROUS_FILE_EXTENSIONS.contains fi.extension := by
  unfold extractFileInfo at h
  split at h
  · cases h
  · injection h with h2
    rw [← h2]

theorem dangerous_not_empty :
    ∀ s ∈ DANGEROUS_FILE_EXTENSIONS, s.isEmpty = false := by decide

theorem isFileTypeAllowed_dangerous {cfg : DlConfig} {fi : FileInfo}
    (hAll : cfg.allowAllFileTypes = false) (hdang : fi.isDangerous = true)
    (hext : fi.extension.isEmpty = false) :
    isFileTypeAllowed cfg (some fi) = false := by
  rw [isFileTypeAllowed, if_neg (by rw [hAll]; simp)]
  rw [if_neg (by rw [hext]; simp), if_pos (by rw [hdang])]

/-- A configuration with `allowAllFileTypes := true` and an image
allow-list, used as the C1 counterexample configuration. -/
def cfgAllowAll : DlConfig :=
  { maxConcurrency := 5, maxFileSize := 10485760, retryCount := 3,
    retryDelay := 1000, allowedFileTypes := [FileTypeCategory.image],
    allowAllFileTypes := true }

/-- The same configuration with `allowAllFileTypes := false`. -/
def cfgDenyAll : DlConfig :=
  { maxConcurrency := 5, maxFileSize := 10485760, retryCount := 3,
    retryDelay := 1000, allowedFileTypes := [FileTypeCategory.image],
    allowAllFileTypes := false }

/-- A small successful HTTP response (one 4-byte chunk). -/
def respOk4 : HttpResponse :=
  { ok := true, status := 200, statusText := "OK", contentLength := some 4,
    body := some [4] }

/-- Download environment for a URL whose path classifies as a deny-listed
`.exe` file and whose server would answer `respOk4`. -/
def envExe : DlEnv :=
  { validUrl := true, fileInfo := extractFileInfo "/payload/setup.exe",
    response := some respOk4, networkErrorMsg := "Failed to fetch" }

/-- C1 counterexample: a deny-listed `.exe` URL classified as dangerous is
nevertheless accepted by the file-type gate when `allowAllFileTypes` is
`true`, its fetch is performed, and the download succeeds — the
dangerous-extension deny-list is not consulted under that configuration. -/
theorem c1_allowAll_admits_dangerous :
    (extractFileInfo "/payload/setup.exe").map (fun fi => fi.isDangerous) =
        some true ∧
    isFileTypeAllowed cfgAllowAll (extractFileInfo "/payload/setup.exe") =
        true ∧
    downloadFile cfgAllowAll envExe =
      ({ success := true, error := none, fetched := true, chunksRead := 1,
         fileSize := some 4 }, 1) := by
  refine ⟨by decide, by decide, by decide⟩

/-- C1 (amended): when `allowAllFileTypes` is `false`, a URL whose
classified extension is on the deny-list is rejected as
`File type not allowed` regardless of the configured allow-list, before
any network request, with zero retry attempts. -/
theorem c1_dangerous_rejected_when_not_allowAll
    (cfg : DlConfig) (env : DlEnv) (path : String) (fi : FileInfo)
    (hAll : cfg.allowAllFileTypes = false)
    (hfi : extractFileInfo path = some fi)
    (hdanger : DANGEROUS_FILE_EXTENSIONS.contains fi.extension = true)
    (henv : env.fileInfo = extractFileInfo path)
    (hvalid : env.validUrl = true) :
    downloadFile cfg env =
      ({ success := false, error := some "File type not allowed",
         fetched := false, chunksRead := 0, fileSize := none }, 1) := by
  have hmem : fi.extension ∈ DANGEROUS_FILE_EXTENSIONS :=
    List.mem_of_elem_eq_true hdanger
  have hdang2 : fi.isDangerous = true :=
    (extractFileInfo_isDangerous hfi).trans hdanger
  have hallow : isFileTypeAllowed cfg env.fileInfo = false := by
    rw [henv, hfi]
    exact isFileTypeAllowed_dangerous hAll hdang2
      (dangerous_not_empty fi.extension hmem)
  have hatt : downloadAttempt cfg env =
      { success := false, error := some "File type not allowed",
        fetched := false, chunksRead := 0, fileSize := none } := by
    rw [downloadAttempt, if_neg (by rw [hvalid]; simp), if_pos hallow]
  rw [downloadFile, downloadFileGo_no_retry cfg env (by rw [hatt]; decide),
    hatt]

/-- Download environment classifying `/a/malware.exe`, for the C1
witness. -/
def envMalware : DlEnv :=
  { validUrl := true, fileInfo := extractFileInfo "/a/malware.exe",
    response := some respOk4, networkErrorMsg := "Failed to fetch" }

/-- The classified `FileInfo` of `/a/malware.exe`. -/
def fiMalware : FileInfo :=
  { extension := "exe", fileName := "malware", isDangerous := true,
    mimeType := some "application/octet-stream" }

/-- Witness for the amended C1 theorem: the deny-listed `.exe` path from a
concrete dangerous URL is rejected with no fetch and a single attempt. -/
theorem c1_dangerous_rejected_witness :
    cfgDenyAll.allowAllFileTypes = false ∧
    extractFileInfo "/a/malware.exe" = some fiMalware ∧
    downloadFile cfgDenyAll envMalware =
      ({ success := false, error := some "File type not allowed",
         fetched := false, chunksRead := 0, fileSize := none }, 1) :=
  ⟨rfl, by decide,
    c1_dangerous_rejected_when_not_allowAll cfgDenyAll envMalware
      "/a/malware.exe" fiMalware rfl (by decide) (by decide) rfl rfl⟩

/-- An HTTP 500 response with the standard reason phrase. -/
def resp500 : HttpResponse :=
  { ok := false, status := 500, statusText := "Internal Server Error",
    contentLength := none, body := none }

/-- An HTTP 503 response with the standard reason phrase. -/
def resp503 : HttpResponse :=
  { ok := false, status := 503, statusText := "Service Unavailable",
    contentLength := none, body := none }

/-- Download environment whose fetch answers HTTP 500. -/
def env500 : DlEnv :=
  { validUrl := true, fileInfo := none, response := some resp500,
    networkErrorMsg := "Failed to fetch" }

/-- Download environment whose fetch answers HTTP 503. -/
def env503 : DlEnv :=
  { validUrl := true, fileInfo := none, response := some resp503,
    networkErrorMsg := "Failed to fetch" }

/-- C5 counterexample: an HTTP 500 download failure is not retried even
with three retries budgeted — the result is produced after a single
attempt, because `shouldRetry` only inspects the message for network
keywords that `HTTP 500: Internal Server Error` does not contain. -/
theorem c5_http500_not_retried :
    cfgAllowAll.retryCount = 3 ∧
    downloadFile cfgAllowAll env500 =
      ({ success := false, error := some "HTTP 500: Internal Server Error",
         fetched := true, chunksRead := 0, fileSize := none }, 1) := by
  exact ⟨rfl, by decide⟩

/-- C5 (amended): in the download stage no HTTP status failure is
retried, 5xx included — the retry predicate only searches the error
message for network keywords, so as long as the status text itself does
not contain `fetch`, `timeout` or `network`, the task fails after exactly
one attempt for every status code. -/
theorem c5_http_failure_single_attempt
    (cfg : DlConfig) (env : DlEnv) (resp : HttpResponse)
    (hvalid : env.validUrl = true)
    (hallow : isFileTypeAllowed cfg env.fileInfo = true)
    (hresp : env.response = some resp) (hok : resp.ok = false)
    (hf : strIncludes resp.statusText "fetch" = false)
    (ht : strIncludes resp.statusText "timeout" = false)
    (hn : strIncludes resp.statusText "network" = false) :
    downloadFile cfg env =
      ({ success := false,
         error := some (httpErrorMsg resp.status resp.statusText),
         fetched := true, chunksRead := 0, fileSize := none }, 1) := by
  have hatt : downloadAttempt cfg env =
      { success := false,
        error := some (httpErrorMsg resp.status resp.statusText),
        fetched := true, chunksRead := 0, fileSize := none } := by
    rw [downloadAttempt, if_neg (by rw [hvalid]; simp),
      if_neg (by rw [hallow]; simp), hresp]
    simp only [if_pos hok]
  have hnoretry : dlShouldRetry ((downloadAttempt cfg env).error.getD
      "Unknown error occurred") = false := by
    rw [hatt]
    show dlShouldRetry (httpErrorMsg resp.status resp.statusText) = false
    rw [dlShouldRetry_httpErrorMsg, hf, ht, hn]
    rfl
  rw [downloadFile, downloadFileGo_no_retry cfg env hnoretry, hatt]

/-- Witness for the amended C5 theorem at a concrete 503 response. -/
theorem c5_http_failure_witness :
    downloadFile cfgAllowAll env503 =
      ({ success := false, error := some "HTTP 503: Service Unavailable",
         fetched := true, chunksRead := 0, fileSize := none }, 1) := by
  have h := c5_http_failure_single_attempt cfgAllowAll env503 resp503
    rfl (by decide) rfl rfl (by decide) (by decide) (by decide)
  rw [h]
  decide

theorem streamChunks_exceeds (max : Nat) :
    ∀ (chunks : List Nat) (loaded k : Nat), loaded ≤ max →
    max < loaded + chunks.sum →
    ∃ j, 0 < j ∧ j ≤ chunks.length ∧
      max < loaded + (chunks.take j).sum ∧
      (∀ i < j, loaded + (chunks.take i).sum ≤ max) ∧
      streamChunks max chunks loaded k =
        ⟨true, k + j, loaded + (chunks.take j).sum⟩ := by
  intro chunks
  induction chunks with
  | nil =>
    intro loaded k h1 h2
    simp at h2
    omega
  | cons c rest ih =>
    intro loaded k h1 h2
    by_cases hc : max < loaded + c
    · refine ⟨1, Nat.one_pos, by simp, by simpa using hc, ?_, ?_⟩
      · intro i hi
        interval_cases i
        simpa using h1
      · rw [streamChunks, if_pos hc]
        simp
    · have hc2 : loaded + c ≤ max := Nat.le_of_not_lt hc
      have h3 : max < (loaded + c) + rest.sum := by
        simp only [List.sum_cons] at h2
        omega
      obtain ⟨j, hj0, hjlen, hjsum, hjmin, hjeq⟩ := ih (loaded + c) (k + 1) hc2 h3
      refine ⟨j + 1, Nat.succ_pos j, by simpa using hjlen, ?_, ?_, ?_⟩
      · simp only [List.take_succ_cons, List.sum_cons]
        omega
      · intro i hi
        cases i with
        | zero => simpa using h1
        | succ i2 =>
          have := hjmin i2 (by omega)
          simp only [List.take_succ_cons, List.sum_cons]
          omega
      · rw [streamChunks, if_neg hc, hjeq]
        simp only [List.take_succ_cons, List.sum_cons, StreamOutcome.mk.injEq,
          true_and]
        omega

/-- C6: a URL whose declared content length exceeds `maxFileSize` fails
with the pre-flight size message, zero chunks read and a single attempt;
a URL whose streamed bytes exceed `maxFileSize` fails with the
mid-stream size message after reading exactly up to the first chunk that
crosses the limit, again with a single attempt.  Neither size failure is
ever retried, because `shouldRetry` finds no network keyword in either
message. -/
theorem c6_file_too_large_no_retry :
    (∀ (cfg : DlConfig) (env : DlEnv) (resp : HttpResponse) (t : Nat),
      env.validUrl = true → isFileTypeAllowed cfg env.fileInfo = true →
      env.response = some resp → resp.ok = true →
      resp.contentLength = some t → cfg.maxFileSize < t →
      downloadFile cfg env =
        ({ success := false, error := some (sizeMsgPre t cfg.maxFileSize),
           fetched := true, chunksRead := 0, fileSize := none }, 1)) ∧
    (∀ (cfg : DlConfig) (env : DlEnv) (resp : HttpResponse)
        (chunks : List Nat),
      env.validUrl = true → isFileTypeAllowed cfg env.fileInfo = true →
      env.response = some resp → resp.ok = true →
      (∀ t, resp.contentLength = some t → t ≤ cfg.maxFileSize) →
      resp.body = some chunks → cfg.maxFileSize < chunks.sum →
      ∃ j, 0 < j ∧ j ≤ chunks.length ∧
        cfg.maxFileSize < (chunks.take j).sum ∧
        (∀ i < j, (chunks.take i).sum ≤ cfg.maxFileSize) ∧
        downloadFile cfg env =
          ({ success := false, error := some sizeMsgMid,
             fetched := true, chunksRead := j, fileSize := none }, 1)) := by
  constructor
  · intro cfg env resp t hvalid hallow hresp hok hcl hbig
    have hatt : downloadAttempt cfg env =
        { success := false, error := some (sizeMsgPre t cfg.maxFileSize),
          fetched := true, chunksRead := 0, fileSize := none } := by
      rw [downloadAttempt, if_neg (by rw [hvalid]; simp),
        if_neg (by rw [hallow]; simp), hresp]
      dsimp only
      rw [if_neg (by rw [hok]; simp), hcl]
      dsimp only
      rw [if_pos hbig]
    rw [downloadFile,
      downloadFileGo_no_retry cfg env
        (by rw [hatt]; exact dlShouldRetry_sizeMsgPre t cfg.maxFileSize),
      hatt]
  · intro cfg env resp chunks hvalid hallow hresp hok hcl hbody hbig
    obtain ⟨j, hj0, hjlen, hjsum, hjmin, hjeq⟩ :=
      streamChunks_exceeds cfg.maxFileSize chunks 0 0 (Nat.zero_le _)
        (by simpa using hbig)
    have hattbody : downloadBody cfg resp =
        { success := false, error := some sizeMsgMid,
          fetched := true, chunksRead := j, fileSize := none } := by
      rw [downloadBody, hbody]
      dsimp only
      rw [hjeq]
      simp
    have hatt : downloadAttempt cfg env =
        { success := false, error := some sizeMsgMid,
          fetched := true, chunksRead := j, fileSize := none } := by
      rw [downloadAttempt, if_neg (by rw [hvalid]; simp),
        if_neg (by rw [hallow]; simp), hresp]
      dsimp only
      rw [if_neg (by rw [hok]; simp)]
      rcases hscrut : resp.contentLength with _ | t
      · exact hattbody
      · dsimp only
        rw [if_neg (by have := hcl t hscrut; omega)]
        exact hattbody
    refine ⟨j, hj0, hjlen, by simpa using hjsum, by simpa using hjmin, ?_⟩
    rw [downloadFile,
      downloadFileGo_no_retry cfg env
        (by rw [hatt]; show dlShouldRetry sizeMsgMid = false; decide),
      hatt]

/-- A 10 MiB-limit configuration for the C6 witness. -/
def cfg6 : DlConfig :=
  { maxConcurrency := 3, maxFileSize := 10485760, retryCount := 3,
    retryDelay := 1000, allowedFileTypes := [], allowAllFileTypes := true }

/-- A response declaring a 20 MiB content length. -/
def respBig : HttpResponse :=
  { ok := true, status := 200, statusText := "OK",
    contentLength := some 20971520, body := some [] }

/-- Download environment answering `respBig`. -/
def envBig : DlEnv :=
  { validUrl := true, fileInfo := none, response := some respBig,
    networkErrorMsg := "Failed to fetch" }

/-- An 8-byte-limit configuration for the mid-stream C6 witness. -/
def cfgTiny : DlConfig :=
  { maxConcurrency := 3, maxFileSize := 8, retryCount := 3,
    retryDelay := 1000, allowedFileTypes := [], allowAllFileTypes := true }

/-- A response with no declared length whose body streams 5 then 6
bytes. -/
def respStream : HttpResponse :=
  { ok := true, status := 200, statusText := "OK", contentLength := none,
    body := some [5, 6] }

/-- Download environment answering `respStream`. -/
def envStream : DlEnv :=
  { validUrl := true, fileInfo := none, response := some respStream,
    networkErrorMsg := "Failed to fetch" }

/-- Witness for C6: the declared-size rejection at 20 MiB against a
10 MiB limit (zero chunks read, one attempt), and the mid-stream
rejection after the second chunk crosses an 8-byte limit. -/
theorem c6_file_too_large_witness :
    downloadFile cfg6 envBig =
      ({ success := false,
         error := some "File size (20MB) exceeds limit (10MB)",
         fetched := true, chunksRead := 0, fileSize := none }, 1) ∧
    downloadFile cfgTiny envStream =
      ({ success := false, error := some sizeMsgMid,
         fetched := true, chunksRead := 2, fileSize := none }, 1) := by
  constructor
  · have h1 := c6_file_too_large_no_retry.1 cfg6 envBig respBig 20971520
      rfl (by decide) rfl rfl rfl (by decide)
    rw [h1]
    decide
  · obtain ⟨j, hj0, hjlen, hjsum, hjmin, heq⟩ :=
      c6_file_too_large_no_retry.2 cfgTiny envStream respStream [5, 6]
        rfl (by decide) rfl rfl (by intro t ht; cases ht) rfl (by decide)
    have heval : downloadFile cfgTiny envStream =
        ({ success := false, error := some sizeMsgMid,
           fetched := true, chunksRead := 2, fileSize := none }, 1) := by
      decide
    have hj : j = 2 := by
      rw [heval] at heq
      have h7 := congrArg (fun p => p.1.chunksRead) heq
      simpa using h7.symm
    rw [hj] at heq
    exact heq

/-! ## The download pool's admission control (`FileDownloader.processQueue`)

`downloadFiles` pushes each URL onto `downloadQueue` and calls
`processQueue`; `processQueue` starts the head of the queue whenever the
in-flight counter `currentDownloads` is below `maxConcurrency`; each
finished download decrements the counter and calls `processQueue` again.
JavaScript runs these bookkeeping sections atomically between `await`
points, so a run of the pool is a sequence of `submit`/`finish` events,
each followed by one `processQueue` pass. -/

/-- Queue/counter state of the pool: the pending queue (task ids) and the
`currentDownloads` in-flight counter. -/
structure PoolState where
  queue : List Nat
  current : Nat
deriving DecidableEq, Repr

/-- One `processQueue` pass: return unchanged when the counter has
reached `K` or the queue is empty, otherwise shift the queue head and
increment the counter. -/
def tryStart (K : Nat) (s : PoolState) : PoolState :=
  if s.current < K then
    match s.queue with
    | [] => s
    | _ :: rest => { queue := rest, current := s.current + 1 }
  else s

/-- Events of the pool: a submission (push + `processQueue`) and a
download completion (decrement + `processQueue`). -/
inductive PoolStep (K : Nat) : PoolState → PoolState → Prop where
  | submit (t : Nat) (s : PoolState) :
      PoolStep K s (tryStart K { queue := s.queue ++ [t], current := s.current })
  | finish (s : PoolState) (h : 0 < s.current) :
      PoolStep K s (tryStart K { queue := s.queue, current := s.current - 1 })

/-- Pool states reachable from the initial empty pool. -/
def PoolReachable (K : Nat) (s : PoolState) : Prop :=
  Relation.ReflTransGen (PoolStep K) { queue := [], current := 0 } s

theorem tryStart_current_le {K : Nat} {s : PoolState} (h : s.current ≤ K) :
    (tryStart K s).current ≤ K := by
  rw [tryStart]
  by_cases hlt : s.current < K
  · rw [if_pos hlt]
    rcases hq : s.queue with _ | ⟨a, rest⟩
    · exact h
    · show s.current + 1 ≤ K
      omega
  · rw [if_neg hlt]
    exact h

theorem poolStep_current_le {K : Nat} {s s2 : PoolState}
    (hstep : PoolStep K s s2) (h : s.current ≤ K) : s2.current ≤ K := by
  cases hstep with
  | submit t s => exact tryStart_current_le h
  | finish s hpos =>
    exact tryStart_current_le (by show s.current - 1 ≤ K; omega)

theorem poolReachable_current_le {K : Nat} {s : PoolState}
    (h : PoolReachable K s) : s.current ≤ K := by
  induction h with
  | refl => exact Nat.zero_le K
  | tail hpre hstep ih => exact poolStep_current_le hstep ih

/-- C7: in every reachable pool state the number of in-flight downloads
is at most `K`, and when a download finishes in a state with a non-empty
queue, the completion event keeps the in-flight count unchanged (one
ended, the next queued item starts) and shortens the queue by one. -/
theorem c7_download_concurrency_invariant (K : Nat) (s : PoolState)
    (h : PoolReachable K s) :
    s.current ≤ K ∧
    (0 < s.current → s.queue ≠ [] →
      (tryStart K { queue := s.queue, current := s.current - 1 }).current =
          s.current ∧
      (tryStart K { queue := s.queue, current := s.current - 1 }).queue.length
          + 1 = s.queue.length) := by
  have hle := poolReachable_current_le h
  refine ⟨hle, ?_⟩
  intro hpos hq
  rcases hqe : s.queue with _ | ⟨a, rest⟩
  · exact absurd hqe hq
  · constructor
    · rw [tryStart, if_pos (show s.current - 1 < K by omega)]
      show s.current - 1 + 1 = s.current
      omega
    · rw [tryStart, if_pos (show s.current - 1 < K by omega)]
      show rest.length + 1 = (a :: rest).length
      simp

/-- Witness for C7 at the reachable state with one in-flight download and
one queued task under `K = 1`. -/
theorem c7_download_concurrency_witness :
    (({ queue := [2], current := 1 } : PoolState).current ≤ 1) ∧
    ((tryStart 1 { queue := [2], current := 0 }).current = 1 ∧
      (tryStart 1 { queue := [2], current := 0 }).queue.length + 1 = 1) := by
  have hreach : PoolReachable 1 { queue := [2], current := 1 } := by
    have h1 : PoolReachable 1 (tryStart 1 { queue := [1], current := 0 }) :=
      Relation.ReflTransGen.single
        (PoolStep.submit 1 { queue := [], current := 0 })
    have h2 := Relation.ReflTransGen.tail h1
      (PoolStep.submit 2 (tryStart 1 { queue := [1], current := 0 }))
    have he : tryStart 1
        { queue := (tryStart 1 { queue := [1], current := 0 }).queue ++ [2],
          current := (tryStart 1 { queue := [1], current := 0 }).current } =
        { queue := [2], current := 1 } := by decide
    rw [he] at h2
    exact h2
  have h := c7_download_concurrency_invariant 1 { queue := [2], current := 1 }
    hreach
  exact ⟨h.1, h.2 (by decide) (by decide)⟩

/-! ## Cancellation and queued tasks (`FileDownloader.cancelAllDownloads`)

`downloadFiles` creates one promise per URL whose `resolve` function is
stored in the queue entry; `cancelAllDownloads` aborts the in-flight
controllers and sets `downloadQueue.length = 0`, discarding the stored
resolvers of all still-queued entries.  The richer state below tracks,
per task id, whether it is queued (submitted, resolver in the queue),
active (its `downloadFile` call is running; aborting it still lets the
promise settle through the catch/finally path), or resolved (its promise
has settled). -/

/-- Queue/active/resolved bookkeeping of the downloader, per task id. -/
structure DownloaderState where
  queue : List Nat
  active : List Nat
  resolved : List Nat
deriving DecidableEq, Repr

/-- One `processQueue` pass on the richer state. -/
def tryStartD (K : Nat) (s : DownloaderState) : DownloaderState :=
  if s.active.length < K then
    match s.queue with
    | [] => s
    | t :: rest =>
      { queue := rest, active := s.active ++ [t], resolved := s.resolved }
  else s

/-- Downloader events after a cancellation, excluding re-submission of
the distinguished task `t`: submissions of other tasks, completions of
active tasks (an aborted in-flight download still completes through the
catch/finally path and resolves its promise), and further `cancelAll`
calls (which clear the queue). -/
inductive DStepNS (K : Nat) (t : Nat) : DownloaderState → DownloaderState → Prop where
  | submit (u : Nat) (s : DownloaderState) (hne : u ≠ t) :
      DStepNS K t s (tryStartD K
        { queue := s.queue ++ [u], active := s.active, resolved := s.resolved })
  | finish (u : Nat) (s : DownloaderState) (h : u ∈ s.active) :
      DStepNS K t s (tryStartD K
        { queue := s.queue, active := s.active.erase u,
          resolved := s.resolved ++ [u] })
  | cancelAll (s : DownloaderState) :
      DStepNS K t s { queue := [], active := s.active, resolved := s.resolved }

/-- A task absent from the queue, the active set and the resolved set. -/
def Orphan (t : Nat) (s : DownloaderState) : Prop :=
  t ∉ s.queue ∧ t ∉ s.active ∧ t ∉ s.resolved

theorem orphan_tryStartD {K t : Nat} {s : DownloaderState} (h : Orphan t s) :
    Orphan t (tryStartD K s) := by
  obtain ⟨hq, ha, hr⟩ := h
  rw [tryStartD]
  by_cases hlt : s.active.length < K
  · rw [if_pos hlt]
    rcases hqe : s.queue with _ | ⟨u, rest⟩
    · exact ⟨hq, ha, hr⟩
    · rw [hqe] at hq
      refine ⟨?_, ?_, hr⟩
      · intro hmem
        exact hq (List.mem_cons_of_mem u hmem)
      · intro hmem
        rcases List.mem_append.mp hmem with h2 | h2
        · exact ha h2
        · simp at h2
          exact hq (h2 ▸ List.mem_cons_self u rest)
  · rw [if_neg hlt]
    exact ⟨hq, ha, hr⟩

theorem orphan_preserved {K t : Nat} {s s2 : DownloaderState}
    (hstep : DStepNS K t s s2) (h : Orphan t s) : Orphan t s2 := by
  obtain ⟨hq, ha, hr⟩ := h
  cases hstep with
  | submit u s hne =>
    refine orphan_tryStartD ⟨?_, ha, hr⟩
    intro hmem
    rcases List.mem_append.mp hmem with h2 | h2
    · exact hq h2
    · simp at h2
      exact hne h2.symm
  | finish u s hu =>
    refine orphan_tryStartD ⟨hq, ?_, ?_⟩
    · intro hmem
      exact ha (List.mem_of_mem_erase hmem)
    · intro hmem
      rcases List.mem_append.mp hmem with h2 | h2
      · exact hr h2
      · simp at h2
        exact ha (h2 ▸ hu)
  | cancelAll s =>
    exact ⟨List.not_mem_nil t, ha, hr⟩

/-- C4 (divergence): a task still waiting in the download queue when
`cancelAllDownloads` runs is dropped with its resolver: in every state
reachable from the post-cancellation state without re-submitting it, the
task is still unresolved (its promise never settles, so it never reaches
a terminal state and the run summary never materialises). -/
theorem c4_cancelled_queue_never_resolved (K t : Nat) (s : DownloaderState)
    (hq : t ∈ s.queue) (ha : t ∉ s.active) (hr : t ∉ s.resolved) :
    ∀ s3, Relation.ReflTransGen (DStepNS K t)
      { queue := [], active := s.active, resolved := s.resolved } s3 →
    t ∉ s3.resolved ∧ t ∉ s3.queue ∧ t ∉ s3.active := by
  intro s3 hreach
  have horph : Orphan t s3 := by
    clear hq
    induction hreach with
    | refl => exact ⟨List.not_mem_nil t, ha, hr⟩
    | tail hpre hstep ih => exact orphan_preserved hstep ih
  exact ⟨horph.2.2, horph.1, horph.2.1⟩

/-- Witness for the C4 divergence theorem: with `K = 1`, task 2 queued
behind in-flight task 1, cancellation drops task 2; after task 1
completes, only task 1 is resolved and task 2 is gone for good. -/
theorem c4_cancelled_queue_witness :
    (2 : Nat) ∉ ({ queue := [], active := [], resolved := [1] } :
        DownloaderState).resolved ∧
    (2 : Nat) ∉ ({ queue := [], active := [], resolved := [1] } :
        DownloaderState).queue ∧
    (2 : Nat) ∉ ({ queue := [], active := [], resolved := [1] } :
        DownloaderState).active := by
  have hstep : DStepNS 1 2
      { queue := [], active := [1], resolved := [] }
      { queue := [], active := [], resolved := [1] } := by
    have h1 := DStepNS.finish (K := 1) (t := 2) 1
      { queue := [], active := [1], resolved := [] } (by decide)
    have he : tryStartD 1
        { queue := [], active := List.erase [1] 1, resolved := [] ++ [1] } =
        { queue := [], active := [], resolved := [1] } := by decide
    rw [he] at h1
    exact h1
  exact c4_cancelled_queue_never_resolved 1 2
    { queue := [2], active := [1], resolved := [] }
    (by decide) (by decide) (by decide)
    { queue := [], active := [], resolved := [1] }
    (Relation.ReflTransGen.single hstep)

/-! ## The orchestrator's upload pairing
(`LinkConversionService.uploadAttachments`, `generateFinalResults`)

`uploadAttachments` filters the successful downloads, re-scans the table
and pairs each download with `urlRecords.find(r => r.url === result.url)`
— first match by URL string equality — then starts
`uploader.uploadFromUrl(...)` for every pair at once under a
`Promise.all`, never touching the uploader's admission queue.
`generateFinalResults` then pairs `urlRecords[i]`, `downloadResults[i]`
and `uploadResults[i]` by array position. -/

/-- One entry of the scan result: the row/field a URL was discovered
under. -/
structure UrlRecord where
  recordId : String
  fieldId : String
  url : String
  fieldName : String
deriving DecidableEq, Repr

/-- The fields of `IDownloadResult` consulted by the orchestrator. -/
structure DlResult where
  url : String
  success : Bool
  fileName : Option String
  fileSize : Option Nat
  error : Option String
  duration : Nat
deriving DecidableEq, Repr

/-- The fields of `IUploadResult` consulted by the orchestrator. -/
structure UpResult where
  originalUrl : String
  success : Bool
  attachmentId : Option String
  error : Option String
  duration : Nat
deriving DecidableEq, Repr

/-- One `uploadFromUrl(url, fileName, tableId, recordId, fieldId)` call
issued by `uploadAttachments`. -/
structure UploadCall where
  url : String
  fileName : String
  tableId : String
  recordId : String
  fieldId : String
deriving DecidableEq, Repr

/-- Model of `LinkConversionService.uploadAttachments`: for every
successful download, look up the first `urlRecord` with the same URL
string and issue the upload against that record's row id; a missing
mapping rejects the whole batch (the thrown error inside `Promise.all`). -/
def uploadAttachments (tableId attachmentFieldId : String)
    (urlRecords : List UrlRecord) (downloadResults : List DlResult) :
    Except String (List UploadCall) :=
  (downloadResults.filter (fun r => r.success)).mapM (fun dr =>
    match urlRecords.find? (fun rec => rec.url == dr.url) with
    | some rec =>
      Except.ok
        { url := dr.url, fileName := dr.fileName.getD "download",
          tableId := tableId, recordId := rec.recordId,
          fieldId := attachmentFieldId }
    | none =>
      Except.error ("Failed to find record mapping for URL: " ++ dr.url))

/-- One row of `IConversionResult`. -/
structure ConversionResult where
  url : String
  recordId : String
  fieldId : String
  success : Bool
  errorMessage : Option String
  attachmentId : Option String
  fileName : Option String
  fileSize : Option Nat
  processingTime : Nat
deriving DecidableEq, Repr

/-- Model of `LinkConversionService.generateFinalResults`: index-aligned
pairing of `urlRecords[i]` with `downloadResults[i]` and
`uploadResults[i]`, with the `?.`/`??` fallbacks of the code. -/
def generateFinalResults (urlRecords : List UrlRecord)
    (downloadResults : List DlResult) (uploadResults : List UpResult) :
    List ConversionResult :=
  (List.range urlRecords.length).filterMap (fun i =>
    match urlRecords[i]? with
    | none => none
    | some urlRecord =>
      some
        { url := urlRecord.url
          recordId := urlRecord.recordId
          fieldId := urlRecord.fieldId
          success := ((downloadResults[i]?.map (fun r => r.success)).getD false
            && (uploadResults[i]?.map (fun r => r.success)).getD false)
          errorMessage := ((downloadResults[i]?.bind (fun r => r.error)).or
            (uploadResults[i]?.bind (fun r => r.error)))
          attachmentId := uploadResults[i]?.bind (fun r => r.attachmentId)
          fileName := downloadResults[i]?.bind (fun r => r.fileName)
          fileSize := downloadResults[i]?.bind (fun r => r.fileSize)
          processingTime := ((downloadResults[i]?.map (fun r => r.duration)).getD 0
            + (uploadResults[i]?.map (fun r => r.duration)).getD 0) })

/-- Two distinct rows carrying the same URL, and their download results. -/
def recA : UrlRecord :=
  { recordId := "recA", fieldId := "fldUrl", url := "https://x.com/a.jpg",
    fieldName := "Links" }

/-- The second row with the duplicate URL. -/
def recB : UrlRecord :=
  { recordId := "recB", fieldId := "fldUrl", url := "https://x.com/a.jpg",
    fieldName := "Links" }

/-- Successful download of the duplicate URL (discovered under `recA`). -/
def dlA : DlResult :=
  { url := "https://x.com/a.jpg", success := true, fileName := some "a_1.jpg",
    fileSize := some 100, error := none, duration := 10 }

/-- Successful download of the duplicate URL (discovered under `recB`). -/
def dlB : DlResult :=
  { url := "https://x.com/a.jpg", success := true, fileName := some "a_2.jpg",
    fileSize := some 100, error := none, duration := 12 }

/-- A failed download of the duplicate URL. -/
def dlFail : DlResult :=
  { url := "https://x.com/a.jpg", success := false, fileName := none,
    fileSize := none, error := some "HTTP 404: Not Found", duration := 3 }

/-- A successful upload result. -/
def upOk : UpResult :=
  { originalUrl := "https://x.com/a.jpg", success := true,
    attachmentId := some "att1", error := none, duration := 20 }

/-- C2 (divergence): with the same URL in two distinct rows, both upload
calls are issued against the first row's record id — pairing is by URL
string equality, so `recB` never receives an upload; and
`generateFinalResults` pairs upload results by array position, so when
only the second row's download succeeds, its (sole) upload result is
consumed by the first row's entry and the second row — whose download and
upload both succeeded — is reported as failed. -/
theorem c2_pairing_by_url_and_position :
    (uploadAttachments "tbl" "fldAtt" [recA, recB] [dlA, dlB]).map
        (fun calls => calls.map (fun c => c.recordId)) =
      Except.ok ["recA", "recA"] ∧
    (generateFinalResults [recA, recB] [dlFail, dlB] [upOk]).map
        (fun r => (r.recordId, r.success)) =
      [("recA", false), ("recB", false)] := by
  exact ⟨rfl, by decide⟩

/-- The upload concurrency limit hardcoded by
`LinkConversionService.initializeServices` (`maxConcurrency: 2`). -/
def uploaderMaxConcurrency : Nat := 2

/-- The number of uploads `uploadAttachments` has in flight at once: the
`Promise.all` over direct `uploadFromUrl` calls starts one upload per
successful download immediately, bypassing the uploader's queue (nothing
in the service ever pushes onto `uploadQueue`, so `processQueue`'s
`maxConcurrency` gate is never exercised during a run). -/
def uploadsInFlight (downloadResults : List DlResult) : Nat :=
  (downloadResults.filter (fun r => r.success)).length

/-- A third successful download result, of a distinct URL. -/
def dlC : DlResult :=
  { url := "https://x.com/c.png", success := true, fileName := some "c.png",
    fileSize := some 50, error := none, duration := 8 }

/-- A fourth successful download result, of a distinct URL. -/
def dlD : DlResult :=
  { url := "https://x.com/d.gif", success := true, fileName := some "d.gif",
    fileSize := some 60, error := none, duration := 9 }

/-- C3 (divergence): the run's upload stage starts one upload per
successful download simultaneously, so with three successful downloads
three uploads are in flight although the uploader is configured with
`maxConcurrency = 2` — the admission limit is not enforced during a
conversion run. -/
theorem c3_upload_limit_not_enforced :
    uploaderMaxConcurrency = 2 ∧
    uploadsInFlight [dlA, dlC, dlD] = 3 ∧
    uploaderMaxConcurrency < uploadsInFlight [dlA, dlC, dlD] := by
  exact ⟨rfl, by decide, by decide⟩

/-! ## The service's in-progress guard
(`LinkConversionService.startConversion`, `isConversionInProgress`)

`startConversion` throws when `isConverting` is already set; otherwise it
sets the flag and the abort controller, runs the pipeline inside a
`try`, and in the `finally` block resets `isConverting` and deletes the
`downloader`/`uploader`/`abortController` references — on normal
completion, on the empty-scan early return, and when the body throws
alike. -/

/-- The instance fields of `LinkConversionService` relevant to the
guard/cleanup behaviour. -/
structure ServiceState where
  isConverting : Bool
  hasDownloader : Bool
  hasUploader : Bool
  hasAbortController : Bool
deriving DecidableEq, Repr

/-- Abstract outcome of one run of the pipeline body: a summary, or the
message of the error it throws. -/
inductive RunOutcome where
  | ok (totalUrls successfulConversions failedConversions : Nat)
  | err (msg : String)
deriving DecidableEq, Repr

/-- Model of `LinkConversionService.isConversionInProgress`. -/
def isConversionInProgress (s : ServiceState) : Bool := s.isConverting

/-- Model of `LinkConversionService.startConversion` as a function of the
current instance state and the body's outcome: the guard throw leaves the
state untouched; any completed body passes through the `finally` cleanup. -/
def startConversion (s : ServiceState) (outcome : RunOutcome) :
    Except String RunOutcome × ServiceState :=
  if s.isConverting then
    (Except.error "Conversion is already in progress", s)
  else
    match outcome with
    | RunOutcome.ok a b c =>
      (Except.ok (RunOutcome.ok a b c),
        { isConverting := false, hasDownloader := false,
          hasUploader := false, hasAbortController := false })
    | RunOutcome.err m =>
      (Except.error m,
        { isConverting := false, hasDownloader := false,
          hasUploader := false, hasAbortController := false })

/-- C9: starting a conversion while one is in progress throws
`Conversion is already in progress` and leaves the state unchanged; when
no conversion is in progress, the run — normal or throwing — always ends
with the flag cleared and the downloader/uploader/abort-controller
references removed, so `isConversionInProgress` reports `false`
afterwards. -/
theorem c9_guard_and_cleanup (s : ServiceState) (outcome : RunOutcome) :
    (s.isConverting = true →
      startConversion s outcome =
        (Except.error "Conversion is already in progress", s)) ∧
    (s.isConverting = false →
      (startConversion s outcome).2 =
        { isConverting := false, hasDownloader := false,
          hasUploader := false, hasAbortController := false } ∧
      isConversionInProgress (startConversion s outcome).2 = false ∧
      (∀ m, outcome = RunOutcome.err m →
        (startConversion s outcome).1 = Except.error m)) := by
  constructor
  · intro h
    unfold startConversion
    rw [if_pos (by rw [h])]
  · intro h
    cases outcome with
    | ok a b c =>
      unfold startConversion
      rw [if_neg (by rw [h]; exact Bool.false_ne_true)]
      exact ⟨rfl, rfl, by intro m hm; cases hm⟩
    | err m =>
      unfold startConversion
      rw [if_neg (by rw [h]; exact Bool.false_ne_true)]
      exact ⟨rfl, rfl, by intro m2 hm; injection hm with hm2; rw [hm2]⟩

/-- Witness for C9: the guard throw at a busy instance, and the cleanup
after a failing run at an idle instance. -/
theorem c9_guard_and_cleanup_witness :
    startConversion
        { isConverting := true, hasDownloader := true, hasUploader := true,
          hasAbortController := true } (RunOutcome.ok 1 1 0) =
      (Except.error "Conversion is already in progress",
        { isConverting := true, hasDownloader := true, hasUploader := true,
          hasAbortController := true }) ∧
    (startConversion
        { isConverting := false, hasDownloader := false, hasUploader := false,
          hasAbortController := false }
        (RunOutcome.err "Failed to scan URLs in table records")).2 =
      { isConverting := false, hasDownloader := false, hasUploader := false,
        hasAbortController := false } :=
  ⟨(c9_guard_and_cleanup
      { isConverting := true, hasDownloader := true, hasUploader := true,
        hasAbortController := true } (RunOutcome.ok 1 1 0)).1 rfl,
    ((c9_guard_and_cleanup
      { isConverting := false, hasDownloader := false, hasUploader := false,
        hasAbortController := false }
      (RunOutcome.err "Failed to scan URLs in table records")).2 rfl).1⟩

/-! ## URL extraction (`UrlDetector.extractUrls`, `containsUrl`)

The two regexes of `URL_PATTERNS` — `/(https?:\/\/[^\s<>"']+)/gi` and
`/(www\.[^\s<>"']+)/gi` — are modelled by direct scanners: a pattern
match at a position is the case-insensitive literal prefix followed by a
maximal non-empty run of characters outside the excluded class, and the
`exec` loop emits matches left to right, resuming after each match.
`new URL` is modelled by `isValidUrl` below, restricted to what the
code observes: scheme recognition plus authority/host well-formedness
for the `http`/`https` special schemes. -/

/-- The character class `\s` of JavaScript regexes. -/
def isJsSpace (c : Char) : Bool :=
  c.val == 32 || c.val == 9 || c.val == 10 || c.val == 13 || c.val == 11 ||
    c.val == 12 || c.val == 0xa0 || c.val == 0x1680 ||
    (0x2000 ≤ c.val && c.val ≤ 0x200a) || c.val == 0x2028 ||
    c.val == 0x2029 || c.val == 0x202f || c.val == 0x205f ||
    c.val == 0x3000 || c.val == 0xfeff

/-- The negated class `[^\s<>"']` shared by both URL patterns. -/
def isUrlBodyChar (c : Char) : Bool :=
  !(isJsSpace c || c == '<' || c == '>' || c == '"' || c == '\'')

/-- Consume a lowercase literal pattern case-insensitively (the `i`
flag); returns the rest of the input on success. -/
def stripCI : List Char → List Char → Option (List Char)
  | [], l => some l
  | _ :: _, [] => none
  | p :: ps, c :: cs => if c.toLower == p then stripCI ps cs else none

/-- The `://` separator plus the non-empty body `[^\s<>"']+`, after
`consumed` characters of matched scheme prefix; returns the total match
length. -/
def matchTail (consumed : Nat) (r : List Char) : Option Nat :=
  match stripCI [':', '/', '/'] r with
  | none => none
  | some r3 =>
    if (r3.takeWhile isUrlBodyChar).isEmpty then none
    else some (consumed + 3 + (r3.takeWhile isUrlBodyChar).length)

/-- Match of `https?:\/\/[^\s<>"']+` at the head of the input,
returning the matched length.  (`https?` needs no backtracking: when the
optional `s` is consumed the next character cannot also start `://`.) -/
def matchHttpAt (l : List Char) : Option Nat :=
  match stripCI ['h', 't', 't', 'p'] l with
  | none => none
  | some [] => none
  | some (c :: rest) =>
    if c.toLower == 's' then matchTail 5 rest else matchTail 4 (c :: rest)

/-- Match of `www\.[^\s<>"']+` at the head of the input, returning the
matched length. -/
def matchWwwAt (l : List Char) : Option Nat :=
  match stripCI ['w', 'w', 'w', '.'] l with
  | none => none
  | some r1 =>
    if (r1.takeWhile isUrlBodyChar).isEmpty then none
    else some (4 + (r1.takeWhile isUrlBodyChar).length)

theorem matchTail_pos {consumed : Nat} {r : List Char} {len : Nat}
    (h : matchTail consumed r = some len) : 0 < len := by
  unfold matchTail at h
  split at h
  · cases h
  · split at h
    · cases h
    · injection h with h2
      omega

/-- The `exec` loop of one `/g` pattern: try the pattern at each
position from left to right, emit `(start, length)` for each match and
resume searching right after it.  Fuel-driven (each step consumes at
least one character, so `length + 1` fuel always suffices). -/
def scanPatternGo (matchAt : List Char → Option Nat) :
    Nat → List Char → Nat → List (Nat × Nat)
  | 0, _, _ => []
  | _ + 1, [], _ => []
  | fuel + 1, c :: rest, pos =>
    match matchAt (c :: rest) with
    | some len =>
      (pos, len) :: scanPatternGo matchAt fuel (rest.drop (len - 1)) (pos + len)
    | none => scanPatternGo matchAt fuel rest (pos + 1)

/-- All matches of one pattern over the text. -/
def scanPattern (matchAt : List Char → Option Nat) (l : List Char) :
    List (Nat × Nat) :=
  scanPatternGo matchAt (l.length + 1) l 0

/-- The `IUrlMatch` record of `urlDetector.ts`. -/
structure UrlMatch where
  url : String
  startIndex : Nat
  endIndex : Nat
  cleanedUrl : String
deriving DecidableEq, Repr

/-- Splits a character list at its last occurrence of `sep`. -/
def lastSplit (sep : Char) : List Char → Option (List Char × List Char)
  | [] => none
  | c :: rest =>
    match lastSplit sep rest with
    | some (pre, suf) => some (c :: pre, suf)
    | none => if c == sep then some ([], rest) else none

/-- The WHATWG forbidden host code points. -/
def forbiddenHostChar (c : Char) : Bool :=
  c.val == 0 || c.val == 9 || c.val == 10 || c.val == 13 || c.val == 32 ||
    c == '#' || c == '/' || c == ':' || c == '<' || c == '>' || c == '?' ||
    c == '@' || c == '[' || c == '\\' || c == ']' || c == '^' || c == '|'

/-- Host/port well-formedness of an authority with userinfo stripped:
the optional `:port` suffix must be all digits and at most 65535, and the
host itself must be non-empty and free of forbidden code points. -/
def hostPortOk (hostPort : List Char) : Bool :=
  match lastSplit ':' hostPort with
  | some (host, port) =>
    !host.isEmpty && host.all (fun c => !forbiddenHostChar c) &&
      port.all Char.isDigit &&
      (port.isEmpty || port.foldl (fun a c => a * 10 + (c.val.toNat - 48)) 0 ≤ 65535)
  | none =>
    !hostPort.isEmpty && hostPort.all (fun c => !forbiddenHostChar c)

/-- Scheme parse of `new URL`: an ASCII letter followed by
letters/digits/`+`/`-`/`.` up to a colon; no colon means a relative URL,
which throws without a base. -/
def schemeSplit : List Char → List Char → Option (List Char × List Char)
  | acc, c :: rest =>
    if c == ':' then some (acc.reverse, rest)
    else if c.isAlphanum || c == '+' || c == '-' || c == '.' then
      schemeSplit (c :: acc) rest
    else none
  | _, [] => none

/-- Model of `UrlDetector.isValidUrl`: `new URL(url)` must succeed and
the protocol must be `http:` or `https:`.  A URL with a non-`http(s)`
scheme returns `false` either way (parse failure or protocol mismatch),
so only the special-scheme authority rules are modelled: leading slashes
are consumed, the authority runs to the first `/`, `\`, `?` or `#`,
userinfo before the last `@` is stripped, and the host/port must be
well-formed. -/
def isValidUrl (url : String) : Bool :=
  match url.toList with
  | [] => false
  | c :: rest =>
    if c.isAlpha then
      match schemeSplit [] (c :: rest) with
      | none => false
      | some (scheme, afterScheme) =>
        let proto := (scheme.map Char.toLower).asString
        if proto == "http" || proto == "https" then
          let afterSlashes := afterScheme.dropWhile
            (fun d => d == '/' || d == '\\')
          let authority := afterSlashes.takeWhile
            (fun d => !(d == '/' || d == '\\' || d == '?' || d == '#'))
          let hostPort :=
            match lastSplit '@' authority with
            | some (_, suf) => suf
            | none => authority
          hostPortOk hostPort
        else false
    else false

/-- The `IUrlMatch` built from one scan hit `(start, length)`: the text
slice, its offsets, and the `www.`-normalized clean URL (note the
normalization tests `startsWith('www.')` case-sensitively although the
regex is case-insensitive). -/
def mkCand (cs : List Char) (p : Nat × Nat) : UrlMatch :=
  { url := ((cs.drop p.1).take p.2).asString
    startIndex := p.1
    endIndex := p.1 + p.2
    cleanedUrl :=
      if strStartsWith ((cs.drop p.1).take p.2).asString "www." then
        "https://" ++ ((cs.drop p.1).take p.2).asString
      else ((cs.drop p.1).take p.2).asString }

/-- The candidates both patterns produce over a text. -/
def urlCandidates (text : String) : List UrlMatch :=
  (scanPattern matchHttpAt text.toList ++
    scanPattern matchWwwAt text.toList).map (mkCand text.toList)

/-- The `while ((match = pattern.exec(text)) !== null)` body of
`extractUrls` over one pattern's matches: clean each hit, validate the
cleaned URL, and push the accepted match onto the accumulator. -/
def extractUrlsScan (cs : List Char) (ms : List (Nat × Nat))
    (acc : List UrlMatch) : List UrlMatch :=
  match ms with
  | [] => acc
  | p :: rest =>
    if isValidUrl (mkCand cs p).cleanedUrl then
      extractUrlsScan cs rest (acc ++ [mkCand cs p])
    else
      extractUrlsScan cs rest acc

/-- Model of `UrlDetector.extractUrls` on a string: both patterns in
order, accumulating into one `matches` array. -/
def extractUrls (text : String) : List UrlMatch :=
  extractUrlsScan text.toList (scanPattern matchWwwAt text.toList)
    (extractUrlsScan text.toList (scanPattern matchHttpAt text.toList) [])

/-- Model of `UrlDetector.containsUrl` on a string: some pattern has a
match (`pattern.test` with `lastIndex` reset). -/
def containsUrl (text : String) : Bool :=
  !(scanPattern matchHttpAt text.toList).isEmpty ||
    !(scanPattern matchWwwAt text.toList).isEmpty

/-- A JavaScript value as it may arrive at the detector's entry points:
the guard `!text || typeof text !== 'string'` distinguishes strings,
their emptiness, and non-string values. -/
inductive JsValue where
  | str (s : String)
  | nullV
  | undefinedV
  | num (n : Int)
  | boolV (b : Bool)
deriving DecidableEq, Repr

/-- JS `typeof v === 'string'`. -/
def JsValue.isString : JsValue → Bool
  | .str _ => true
  | _ => false

/-- JS truthiness of the values of `JsValue`. -/
def jsTruthy : JsValue → Bool
  | .str s => !s.isEmpty
  | .nullV => false
  | .undefinedV => false
  | .num n => n != 0
  | .boolV b => b

/-- Model of `UrlDetector.extractUrls` including its input guard. -/
def extractUrlsJs (v : JsValue) : List UrlMatch :=
  if !jsTruthy v || !v.isString then []
  else
    match v with
    | .str s => extractUrls s
    | _ => []

/-- Model of `UrlDetector.containsUrl` including its input guard. -/
def containsUrlJs (v : JsValue) : Bool :=
  if !jsTruthy v || !v.isString then false
  else
    match v with
    | .str s => containsUrl s
    | _ => false

theorem matchHttpAt_pos {l : List Char} {len : Nat}
    (h : matchHttpAt l = some len) : 0 < len := by
  unfold matchHttpAt at h
  split at h
  · cases h
  · cases h
  · split at h
    · exact matchTail_pos h
    · exact matchTail_pos h

theorem matchWwwAt_pos {l : List Char} {len : Nat}
    (h : matchWwwAt l = some len) : 0 < len := by
  unfold matchWwwAt at h
  split at h
  · cases h
  · split at h
    · cases h
    · injection h with h2
      omega

theorem scanPatternGo_sound {f : List Char → Option Nat}
    (hf : ∀ l len, f l = some len → 0 < len) (cs : List Char) :
    ∀ (fuel : Nat) (l : List Char) (pos : Nat), l = cs.drop pos →
      ∀ p ∈ scanPatternGo f fuel l pos, f (cs.drop p.1) = some p.2 := by
  intro fuel
  induction fuel with
  | zero =>
    intro l pos hl p hp
    simp [scanPatternGo] at hp
  | succ fuel ih =>
    intro l pos hl p hp
    rcases l with _ | ⟨c, rest⟩
    · simp [scanPatternGo] at hp
    · rw [scanPatternGo] at hp
      rcases hm : f (c :: rest) with _ | len
      · rw [hm] at hp
        have hrest : rest = cs.drop (pos + 1) := by
          have h5 := congrArg (List.drop 1) hl
          simp only [List.drop_succ_cons, List.drop_zero, List.drop_drop] at h5
          rw [h5, Nat.add_comm]
        exact ih rest (pos + 1) hrest p hp
      · rw [hm] at hp
        rcases List.mem_cons.mp hp with rfl | hp2
        · rw [← hl]
          exact hm
        · have hlen := hf _ _ hm
          obtain ⟨len2, rfl⟩ : ∃ len2, len = len2 + 1 := ⟨len - 1, by omega⟩
          have hrest2 : rest.drop (len2 + 1 - 1) = cs.drop (pos + (len2 + 1)) := by
            have h5 := congrArg (List.drop (len2 + 1)) hl
            simp only [List.drop_succ_cons, List.drop_drop] at h5
            simp only [Nat.add_sub_cancel]
            rw [h5]
          exact ih (rest.drop (len2 + 1 - 1)) (pos + (len2 + 1)) hrest2 p hp2

theorem scanPattern_sound {f : List Char → Option Nat}
    (hf : ∀ l len, f l = some len → 0 < len) (cs : List Char) :
    ∀ p ∈ scanPattern f cs, f (cs.drop p.1) = some p.2 :=
  fun p hp =>
    scanPatternGo_sound hf cs (cs.length + 1) cs 0 (List.drop_zero cs).symm p hp

theorem extractUrlsScan_eq (cs : List Char) :
    ∀ (ms : List (Nat × Nat)) (acc : List UrlMatch),
      extractUrlsScan cs ms acc =
        acc ++ (ms.map (mkCand cs)).filter (fun m => isValidUrl m.cleanedUrl) := by
  intro ms
  induction ms with
  | nil =>
    intro acc
    simp [extractUrlsScan]
  | cons p rest ih =>
    intro acc
    rw [extractUrlsScan]
    by_cases hv : isValidUrl (mkCand cs p).cleanedUrl
    · rw [if_pos hv, ih]
      simp [hv]
    · rw [if_neg hv, ih]
      simp [hv]

theorem mkCand_cleaned_spec (cs : List Char) (p : Nat × Nat) :
    (strStartsWith (mkCand cs p).url "www." = true ∧
      (mkCand cs p).cleanedUrl = "https://" ++ (mkCand cs p).url) ∨
    (strStartsWith (mkCand cs p).url "www." = false ∧
      (mkCand cs p).cleanedUrl = (mkCand cs p).url) := by
  by_cases hw : strStartsWith ((cs.drop p.1).take p.2).asString "www." = true
  · exact Or.inl ⟨hw, if_pos hw⟩
  · exact Or.inr ⟨by simpa using hw, if_neg hw⟩

/-- C8: `extractUrls` returns exactly the regex candidates whose cleaned
URL passes URL validation (candidates failing `new URL` are silently
discarded); every returned match passes validation; and every candidate
is an actual occurrence of one of the two patterns at its recorded text
offsets — an absolute `http(s)://` match taken verbatim, or a
`www.`-prefixed match normalized by prepending `https://`.  The
extraction itself is a total function of the text: it never throws. -/
theorem c8_extractUrls_contract (text : String) :
    extractUrls text =
      (urlCandidates text).filter (fun m => isValidUrl m.cleanedUrl) ∧
    (∀ m ∈ extractUrls text, isValidUrl m.cleanedUrl = true) ∧
    (∀ m ∈ urlCandidates text,
      (matchHttpAt (text.toList.drop m.startIndex) =
          some (m.endIndex - m.startIndex) ∨
        matchWwwAt (text.toList.drop m.startIndex) =
          some (m.endIndex - m.startIndex)) ∧
      m.url.toList =
        (text.toList.drop m.startIndex).take (m.endIndex - m.startIndex) ∧
      ((strStartsWith m.url "www." = true ∧
          m.cleanedUrl = "https://" ++ m.url) ∨
        (strStartsWith m.url "www." = false ∧ m.cleanedUrl = m.url))) := by
  have h1 : extractUrls text =
      (urlCandidates text).filter (fun m => isValidUrl m.cleanedUrl) := by
    rw [extractUrls, extractUrlsScan_eq, extractUrlsScan_eq, urlCandidates,
      List.map_append, List.filter_append]
    simp
  refine ⟨h1, ?_, ?_⟩
  · intro m hm
    rw [h1] at hm
    exact (List.mem_filter.mp hm).2
  · intro m hm
    rw [urlCandidates, List.mem_map] at hm
    obtain ⟨p, hp, rfl⟩ := hm
    have harith : (mkCand text.toList p).endIndex -
        (mkCand text.toList p).startIndex = p.2 := by
      show p.1 + p.2 - p.1 = p.2
      omega
    refine ⟨?_, ?_, ?_⟩
    · rw [harith]
      rcases List.mem_append.mp hp with hp1 | hp2
      · exact Or.inl
          (@scanPattern_sound matchHttpAt (fun l len h => matchHttpAt_pos h)
            text.toList p hp1)
      · exact Or.inr
          (@scanPattern_sound matchWwwAt (fun l len h => matchWwwAt_pos h)
            text.toList p hp2)
    · rw [harith]
      rfl
    · exact mkCand_cleaned_spec text.toList p

/-- Witness for C8 at a concrete text holding one `www.` URL, one
absolute URL, and one malformed candidate (`http://:` — empty host)
that standard URL parsing rejects. -/
theorem c8_extractUrls_witness :
    extractUrls "see www.ex.com or https://a.b/c.pdf or http://:" =
      (urlCandidates "see www.ex.com or https://a.b/c.pdf or http://:").filter
        (fun m => isValidUrl m.cleanedUrl) ∧
    isValidUrl "https://www.ex.com" = true ∧
    (extractUrls "see www.ex.com or https://a.b/c.pdf or http://:").map
        (fun m => m.cleanedUrl) =
      ["https://a.b/c.pdf", "https://www.ex.com"] := by
  refine ⟨(c8_extractUrls_contract
    "see www.ex.com or https://a.b/c.pdf or http://:").1, ?_, by decide⟩
  have h2 := (c8_extractUrls_contract
    "see www.ex.com or https://a.b/c.pdf or http://:").2.1
    { url := "www.ex.com", startIndex := 4, endIndex := 14,
      cleanedUrl := "https://www.ex.com" }
    (by decide)
  exact h2

/-- C10: the empty string and every non-string input are turned away by
the entry guard: `extractUrls` answers the empty list and `containsUrl`
answers `false`, and both are total functions of the input — neither
throws. -/
theorem c10_guarded_inputs (v : JsValue)
    (h : v = JsValue.str "" ∨ v.isString = false) :
    extractUrlsJs v = [] ∧ containsUrlJs v = false := by
  rcases h with rfl | h
  · exact ⟨rfl, rfl⟩
  · cases v with
    | str s => simp [JsValue.isString] at h
    | nullV => exact ⟨rfl, rfl⟩
    | undefinedV => exact ⟨rfl, rfl⟩
    | num n => exact ⟨by simp [extractUrlsJs, JsValue.isString],
        by simp [containsUrlJs, JsValue.isString]⟩
    | boolV b => exact ⟨by simp [extractUrlsJs, JsValue.isString],
        by simp [containsUrlJs, JsValue.isString]⟩

/-- Witness for C10 at `null`, `undefined` and the empty string. -/
theorem c10_guarded_inputs_witness :
    (extractUrlsJs JsValue.nullV = [] ∧ containsUrlJs JsValue.nullV = false) ∧
    (extractUrlsJs JsValue.undefinedV = [] ∧
      containsUrlJs JsValue.undefinedV = false) ∧
    (extractUrlsJs (JsValue.str "") = [] ∧
      containsUrlJs (JsValue.str "") = false) :=
  ⟨c10_guarded_inputs JsValue.nullV (Or.inr rfl),
    c10_guarded_inputs JsValue.undefinedV (Or.inr rfl),
    c10_guarded_inputs (JsValue.str "") (Or.inl rfl)⟩

end LinkConvert
